import Mathlib

/-!
Verification of the filter/sort engine of the storefront application, facet
derivation, view controller and data-loading orchestration, shallowly
embedded from the TypeScript source (types.ts and the main App component).
JavaScript numbers are modelled as rationals; the Infinity upper price
bound is modelled as the `none` case of an `Option`; strings are Lean
strings with explicit character-list models of the JS string methods used.
-/

namespace StoreApp

/-- Product shape from types.ts (lines 1-11). -/
structure Product where
  id : String
  name : String
  description : String
  price : Rat
  rating : Rat
  imageUrls : List String
  category : String
  brand : String
  stock : Rat
deriving DecidableEq, Repr

/-- UserRole from types.ts (line 24): the closed set of recognized roles. -/
inductive UserRole
  | admin
  | manager
  | editor
deriving DecidableEq, Repr

/-- NotificationType from types.ts (line 73). -/
inductive NotificationType
  | order
  | stock
  | review
deriving DecidableEq, Repr

/-- AdminNotification shape from types.ts (lines 75-81). -/
structure AdminNotification where
  id : String
  type : NotificationType
  message : String
  date : String
  isRead : Bool
deriving DecidableEq, Repr

/-- The filter state of the App component (lines 43-47): search term,
selected category set, selected brand set, price interval and minimum
rating.  `priceHi = none` models the `Infinity` upper bound of the
initial range `[0, Infinity]`. -/
structure FilterCriteria where
  searchTerm : String
  selectedCategories : List String
  selectedBrands : List String
  priceLo : Rat
  priceHi : Option Rat
  minRating : Rat
deriving DecidableEq, Repr

/-- The sort keys offered by the sort select (lines 160-163). -/
inductive SortKey
  | relevance
  | price_asc
  | price_desc
  | rating_desc
deriving DecidableEq, Repr

/-- JS String.prototype.toLowerCase restricted to the character-wise map. -/
def jsToLower (s : String) : String :=
  String.mk (s.data.map Char.toLower)

/-- JS String.prototype.toUpperCase restricted to the character-wise map. -/
def jsToUpper (s : String) : String :=
  String.mk (s.data.map Char.toUpper)

/-- JS String.prototype.includes: `pat` occurs in `hay` as a contiguous
substring (the empty pattern occurs at index 0). -/
def jsIncludes (hay pat : String) : Bool :=
  (List.range (hay.data.length + 1)).any
    (fun i => (hay.data.drop i).take pat.data.length == pat.data)

/-- Line 129: `p.name.toLowerCase().includes(searchTerm.toLowerCase())`. -/
def matchesSearch (c : FilterCriteria) (p : Product) : Bool :=
  jsIncludes (jsToLower p.name) (jsToLower c.searchTerm)

/-- Line 130: `selectedCategories.length === 0 || selectedCategories.includes(p.category)`. -/
def matchesCategory (c : FilterCriteria) (p : Product) : Bool :=
  (c.selectedCategories.length == 0) || c.selectedCategories.contains p.category

/-- Line 131: `selectedBrands.length === 0 || selectedBrands.includes(p.brand)`. -/
def matchesBrand (c : FilterCriteria) (p : Product) : Bool :=
  (c.selectedBrands.length == 0) || c.selectedBrands.contains p.brand

/-- Line 132: `p.price >= priceRange[0] && p.price <= priceRange[1]`;
the comparison with an `Infinity` upper bound is always true. -/
def matchesPrice (c : FilterCriteria) (p : Product) : Bool :=
  decide (c.priceLo ≤ p.price) &&
    (match c.priceHi with
     | none => true
     | some hi => decide (p.price ≤ hi))

/-- Line 133: `p.rating >= minRating`. -/
def matchesRating (c : FilterCriteria) (p : Product) : Bool :=
  decide (c.minRating ≤ p.rating)

/-- Line 134: the conjunction of the five predicates. -/
def productMatches (c : FilterCriteria) (p : Product) : Bool :=
  matchesSearch c p && matchesCategory c p && matchesBrand c p &&
    matchesPrice c p && matchesRating c p

/-- The `le` relation induced by the comparator at lines 136-143: the
comparator returns a nonpositive number on `(a, b)` exactly when this
relation holds; JS `Array.prototype.sort` with a consistent comparator is
a stable sort with respect to it.  The `relevance` branch is the
`default` case returning 0 (everything tied, hence no reordering). -/
def sortLe : SortKey → Product → Product → Bool
  | SortKey.price_asc, a, b => decide (a.price ≤ b.price)
  | SortKey.price_desc, a, b => decide (b.price ≤ a.price)
  | SortKey.rating_desc, a, b => decide (b.rating ≤ a.rating)
  | SortKey.relevance, _, _ => true

/-- Lines 126-144: `products.filter(...).sort(...)`.  `.filter` allocates a
fresh array; `.sort` stably sorts that copy in place. -/
def filteredAndSortedProducts (products : List Product) (c : FilterCriteria)
    (sortBy : SortKey) : List Product :=
  (products.filter (productMatches c)).mergeSort (sortLe sortBy)

/-- The derivation together with the source list as it stands after the
call: `.filter` copies the array and `.sort` mutates only that copy, so
the source component comes back untouched. -/
def deriveRun (products : List Product) (c : FilterCriteria) (k : SortKey) :
    List Product × List Product :=
  (filteredAndSortedProducts products c k, products)

/-- One insertion into a JS Set (keeps the first occurrence, preserving
insertion order). -/
def setInsert (seen : List String) (x : String) : List String :=
  if x ∈ seen then seen else seen ++ [x]

/-- `Array.from(new Set(l))` (lines 96-97): iterate the list, inserting
each element into the set. -/
def jsSetFrom (l : List String) : List String :=
  l.foldl setInsert []

/-- Line 96: the category facet list. -/
def categories (products : List Product) : List String :=
  jsSetFrom (products.map (fun p => p.category))

/-- Line 97: the brand facet list. -/
def brands (products : List Product) : List String :=
  jsSetFrom (products.map (fun p => p.brand))

theorem sortLe_trans (k : SortKey) (a b c : Product) :
    sortLe k a b = true → sortLe k b c = true → sortLe k a c = true := by
  cases k <;> simp only [sortLe, decide_eq_true_eq] <;> intro h1 h2 <;>
    first
      | trivial
      | exact le_trans h1 h2
      | exact le_trans h2 h1

theorem sortLe_total (k : SortKey) (a b : Product) :
    (sortLe k a b || sortLe k b a) = true := by
  cases k <;> simp only [sortLe, Bool.or_eq_true, decide_eq_true_eq]
  · trivial
  · exact le_total _ _
  · exact le_total _ _
  · exact le_total _ _

theorem pairwise_sortLe_relevance (l : List Product) :
    l.Pairwise (fun a b => sortLe SortKey.relevance a b = true) := by
  induction l with
  | nil => constructor
  | cons a t ih => exact List.Pairwise.cons (fun _ _ => rfl) ih

theorem mem_foldl_setInsert (l : List String) (seen : List String) (v : String) :
    v ∈ l.foldl setInsert seen ↔ v ∈ seen ∨ v ∈ l := by
  induction l generalizing seen with
  | nil => simp
  | cons x xs ih =>
    simp only [List.foldl_cons, ih, setInsert]
    by_cases hx : x ∈ seen
    · simp only [if_pos hx, List.mem_cons]
      constructor
      · rintro (h | h)
        · exact Or.inl h
        · exact Or.inr (Or.inr h)
      · rintro (h | rfl | h)
        · exact Or.inl h
        · exact Or.inl hx
        · exact Or.inr h
    · simp only [if_neg hx, List.mem_append, List.mem_singleton, List.mem_cons]
      tauto

theorem nodup_foldl_setInsert (l : List String) (seen : List String)
    (h : seen.Nodup) : (l.foldl setInsert seen).Nodup := by
  induction l generalizing seen with
  | nil => exact h
  | cons x xs ih =>
    simp only [List.foldl_cons, setInsert]
    by_cases hx : x ∈ seen
    · rw [if_pos hx]; exact ih seen h
    · rw [if_neg hx]
      apply ih
      simp [List.nodup_append, h, hx]

theorem jsSetFrom_nodup (l : List String) : (jsSetFrom l).Nodup :=
  nodup_foldl_setInsert l [] List.nodup_nil

theorem mem_jsSetFrom (l : List String) (v : String) :
    v ∈ jsSetFrom l ↔ v ∈ l := by
  unfold jsSetFrom
  rw [mem_foldl_setInsert]
  simp

/-- C1: for every product list and combination of filter criteria, the
derived product subset contains exactly those products of the full list
that satisfy all five predicates conjunctively: case-insensitive substring
match of the search term against the product name, category membership or
empty selected-category set, brand membership or empty selected-brand set,
price within the inclusive interval, and rating at least the minimum
threshold; every product failing any predicate is absent, and the result
is a subset (by identity) of the full list.  Moreover the empty search
term matches every product. -/
theorem filter_contains_exactly_matching (ps : List Product)
    (c : FilterCriteria) (k : SortKey) :
    (∀ p : Product,
      p ∈ filteredAndSortedProducts ps c k ↔
        p ∈ ps ∧
        jsIncludes (jsToLower p.name) (jsToLower c.searchTerm) = true ∧
        (c.selectedCategories = [] ∨ p.category ∈ c.selectedCategories) ∧
        (c.selectedBrands = [] ∨ p.brand ∈ c.selectedBrands) ∧
        (c.priceLo ≤ p.price ∧ ∀ hi : Rat, c.priceHi = some hi → p.price ≤ hi) ∧
        c.minRating ≤ p.rating) ∧
    (∀ p : Product, jsIncludes (jsToLower p.name) (jsToLower (String.mk [])) = true) := by
  constructor
  · intro p
    unfold filteredAndSortedProducts
    rw [List.mem_mergeSort, List.mem_filter]
    unfold productMatches matchesSearch matchesCategory matchesBrand
      matchesPrice matchesRating
    cases hhi : c.priceHi with
    | none =>
      simp only [Bool.and_eq_true, Bool.or_eq_true, beq_iff_eq,
        List.length_eq_zero, List.contains, List.elem_iff,
        decide_eq_true_eq, Option.some.injEq, reduceCtorEq, false_implies,
        implies_true, and_true]
      tauto
    | some hi =>
      simp only [Bool.and_eq_true, Bool.or_eq_true, beq_iff_eq,
        List.length_eq_zero, List.contains, List.elem_iff,
        decide_eq_true_eq, Option.some.injEq, forall_eq']
      tauto
  · intro p
    unfold jsIncludes jsToLower
    simp only [List.any_eq_true, List.mem_range]
    exact ⟨0, by omega, by simp⟩

/-- C2: for every filtered product list, sorting with key price_asc yields
a sequence non-decreasing in price, price_desc non-increasing in price,
rating_desc non-increasing in rating; the sort is stable (any pair already
ordered by the sort relation keeps its relative order, in particular ties);
and with key relevance the output is exactly the filtered list with no
reordering. -/
theorem sorting_correct (ps : List Product) (c : FilterCriteria) :
    (filteredAndSortedProducts ps c SortKey.price_asc).Pairwise
      (fun a b => a.price ≤ b.price) ∧
    (filteredAndSortedProducts ps c SortKey.price_desc).Pairwise
      (fun a b => b.price ≤ a.price) ∧
    (filteredAndSortedProducts ps c SortKey.rating_desc).Pairwise
      (fun a b => b.rating ≤ a.rating) ∧
    filteredAndSortedProducts ps c SortKey.relevance =
      ps.filter (productMatches c) ∧
    (∀ (k : SortKey) (x y : Product), sortLe k x y = true →
      List.Sublist [x, y] (ps.filter (productMatches c)) →
      List.Sublist [x, y] (filteredAndSortedProducts ps c k)) := by
  refine ⟨?_, ?_, ?_, ?_, ?_⟩
  · have h := @List.sorted_mergeSort Product (sortLe SortKey.price_asc)
      (sortLe_trans SortKey.price_asc) (sortLe_total SortKey.price_asc)
      (ps.filter (productMatches c))
    exact h.imp (fun hab => by simpa [sortLe] using hab)
  · have h := @List.sorted_mergeSort Product (sortLe SortKey.price_desc)
      (sortLe_trans SortKey.price_desc) (sortLe_total SortKey.price_desc)
      (ps.filter (productMatches c))
    exact h.imp (fun hab => by simpa [sortLe] using hab)
  · have h := @List.sorted_mergeSort Product (sortLe SortKey.rating_desc)
      (sortLe_trans SortKey.rating_desc) (sortLe_total SortKey.rating_desc)
      (ps.filter (productMatches c))
    exact h.imp (fun hab => by simpa [sortLe] using hab)
  · exact List.mergeSort_of_sorted (pairwise_sortLe_relevance _)
  · intro k x y hxy hsub
    exact List.pair_sublist_mergeSort (sortLe_trans k) (sortLe_total k) hxy hsub

/-- C2 witness: a concrete instance of the stability clause, discharging
its hypotheses on explicit products. -/
theorem sorting_correct_witness :
    List.Sublist
      [{ id := "a", name := "A", description := "", price := 3, rating := 1,
         imageUrls := [], category := "c", brand := "b", stock := 0 },
       { id := "b", name := "B", description := "", price := 3, rating := 2,
         imageUrls := [], category := "c", brand := "b", stock := 0 }]
      (filteredAndSortedProducts
        [{ id := "a", name := "A", description := "", price := 3, rating := 1,
           imageUrls := [], category := "c", brand := "b", stock := 0 },
         { id := "b", name := "B", description := "", price := 3, rating := 2,
           imageUrls := [], category := "c", brand := "b", stock := 0 }]
        { searchTerm := "", selectedCategories := [], selectedBrands := [],
          priceLo := 0, priceHi := none, minRating := 0 }
        SortKey.price_asc) :=
  (sorting_correct _ _).2.2.2.2 SortKey.price_asc _ _ (by decide) (by decide)

/-- C3: the derivation is a pure function: identical inputs yield equal
outputs, and the invocation leaves the source product list unchanged
(the `.sort` call mutates only the copy made by `.filter`). -/
theorem derivation_pure (ps : List Product) (c : FilterCriteria) (k : SortKey) :
    deriveRun ps c k = deriveRun ps c k ∧ (deriveRun ps c k).2 = ps :=
  ⟨rfl, rfl⟩

/-- C9: the derived category and brand facet lists each contain every
distinct category (respectively brand) value occurring in the full product
list exactly once, regardless of how many products share that value. -/
theorem facet_lists_distinct (ps : List Product) :
    (∀ v : String,
      (categories ps).count v =
        if v ∈ ps.map (fun p => p.category) then 1 else 0) ∧
    (∀ v : String,
      (brands ps).count v =
        if v ∈ ps.map (fun p => p.brand) then 1 else 0) := by
  constructor
  · intro v
    by_cases h : v ∈ ps.map (fun p => p.category)
    · rw [if_pos h]
      exact List.count_eq_one_of_mem (jsSetFrom_nodup _)
        ((mem_jsSetFrom _ v).mpr h)
    · rw [if_neg h, List.count_eq_zero]
      intro hmem
      exact h ((mem_jsSetFrom _ v).mp hmem)
  · intro v
    by_cases h : v ∈ ps.map (fun p => p.brand)
    · rw [if_pos h]
      exact List.count_eq_one_of_mem (jsSetFrom_nodup _)
        ((mem_jsSetFrom _ v).mpr h)
    · rw [if_neg h, List.count_eq_zero]
      intro hmem
      exact h ((mem_jsSetFrom _ v).mp hmem)

/-- The View union type (line 21). -/
inductive View
  | store
  | admin
  | dashboard
  | checkout
  | confirmation
  | contact
deriving DecidableEq, Repr

/-- The string value each View constructor stands for in the source. -/
def viewName : View → String
  | View.store => "store"
  | View.admin => "admin"
  | View.dashboard => "dashboard"
  | View.checkout => "checkout"
  | View.confirmation => "confirmation"
  | View.contact => "contact"

/-- The slice of App state relevant to the view controller: the current
view (line 29), the observable state of the auth hook, the three overlay
flags (lines 30, 31, 33), the item count of the cart hook and the recorded
order id
(line 32). -/
structure AppState where
  view : View
  isLoggedIn : Bool
  role : Option UserRole
  isCartOpen : Bool
  isMobileMenuOpen : Bool
  isLoginModalOpen : Bool
  itemCount : Nat
  lastOrderId : Option String
deriving DecidableEq, Repr

/-- Initial state: view starts at `store` (line 29), overlays closed
(lines 30, 31, 33), no order recorded, logged out; the persisted cart may
hold any initial count. -/
def initialState (cart0 : Nat) : AppState :=
  { view := View.store
    isLoggedIn := false
    role := none
    isCartOpen := false
    isMobileMenuOpen := false
    isLoginModalOpen := false
    itemCount := cart0
    lastOrderId := none }

/-- The role list checked by the admin nav buttons (lines 332, 383). -/
def recognizedRoles : List UserRole :=
  [UserRole.admin, UserRole.manager, UserRole.editor]

/-- The render condition of the Admin nav button (lines 330-341, 381-383):
`auth.isLoggedIn` and `auth.role && [...].includes(auth.role)`. -/
def adminNavVisible (s : AppState) : Bool :=
  s.isLoggedIn &&
    (match s.role with
     | some r => recognizedRoles.contains r
     | none => false)

/-- The order identifier of handlePlaceOrder (line 114):
`ORD-` + `Date.now()` + `-` + `Math.random().toString(36).substr(2,5).toUpperCase()`.
`nowStr` is the decimal rendering of `Date.now()` and `rand` the raw
base-36 fragment, both supplied by the environment at the invocation. -/
def genOrderId (nowStr rand : String) : String :=
  String.mk (("ORD-".data ++ nowStr.data) ++ ('-' :: (jsToUpper rand).data))

/-- Discrete user/system events the App component handles.  `placeOrder`
carries the clock and randomness values the environment supplies to
handlePlaceOrder. -/
inductive Event
  | navStore
  | navContact
  | navDashboard
  | navAdmin
  | navCheckout
  | loginSuccess (r : UserRole)
  | logout
  | placeOrder (nowStr rand : String)
  | openCart
  | closeCart
  | toggleMobileMenu
  | openLoginModal
  | closeLoginModal
  | addToCart
deriving DecidableEq, Repr

/-- The primary state update of each event handler.  Events whose trigger
is not rendered in the current state (the Admin button without an
authenticated role, the callbacks of the login modal while it is closed, the
logged-in-only buttons while logged out, placing an order outside the
checkout view) leave the state unchanged: the handler does not exist. -/
def applyEvent (s : AppState) : Event → AppState
  | Event.navStore => { s with view := View.store }
  | Event.navContact => { s with view := View.contact }
  | Event.navDashboard =>
      if s.isLoggedIn then { s with view := View.dashboard } else s
  | Event.navAdmin =>
      if adminNavVisible s then { s with view := View.admin } else s
  | Event.navCheckout => { s with view := View.checkout }
  | Event.loginSuccess r =>
      if s.isLoginModalOpen then
        { s with isLoggedIn := true, role := some r,
                 isLoginModalOpen := false, view := View.admin }
      else s
  | Event.logout =>
      if s.isLoggedIn then
        { s with isLoggedIn := false, role := none, view := View.store }
      else s
  | Event.placeOrder nowStr rand =>
      if s.view = View.checkout then
        { s with lastOrderId := some (genOrderId nowStr rand),
                 itemCount := 0, view := View.confirmation }
      else s
  | Event.openCart => { s with isCartOpen := true }
  | Event.closeCart => { s with isCartOpen := false }
  | Event.toggleMobileMenu => { s with isMobileMenuOpen := !s.isMobileMenuOpen }
  | Event.openLoginModal =>
      if s.isLoggedIn then s else { s with isLoginModalOpen := true }
  | Event.closeLoginModal => { s with isLoginModalOpen := false }
  | Event.addToCart => { s with itemCount := s.itemCount + 1 }

/-- The effect at lines 89-93: whenever the view value changes, the cart
panel and the mobile menu are closed.  It touches no other flag. -/
def closeOverlaysOnViewChange (oldView : View) (s : AppState) : AppState :=
  if s.view = oldView then s
  else { s with isCartOpen := false, isMobileMenuOpen := false }

/-- One full step: the handler of the event followed by the view-change
effect. -/
def step (s : AppState) (e : Event) : AppState :=
  closeOverlaysOnViewChange s.view (applyEvent s e)

def runEvents (s : AppState) (es : List Event) : AppState :=
  es.foldl step s

/-- A state the view controller can reach from the initial state. -/
def Reachable (s : AppState) : Prop :=
  ∃ (cart0 : Nat) (es : List Event), runEvents (initialState cart0) es = s

/-- The switch in renderCurrentView (lines 270-284): `admin` is not a
case, so it falls to `default` together with `store`. -/
def renderCurrentView : View → View
  | View.dashboard => View.dashboard
  | View.checkout => View.checkout
  | View.confirmation => View.confirmation
  | View.contact => View.contact
  | _ => View.store

/-- `pre` is a prefix of `str` (JS String.prototype.startsWith). -/
def strStartsWith (str pre : String) : Bool :=
  pre.data.isPrefixOf str.data

/-- What the App component returns: either the full-page AdminView
(lines 287-302) or the standard page shell around the content chosen by
renderCurrentView, with the footer shown exactly when the condition of
line 398 holds. -/
inductive RenderedPage
  | adminFullPage
  | shell (content : View) (footerShown : Bool)
deriving DecidableEq, Repr

/-- Lines 286-302 and 304-403: the full-page AdminView renders only when
the view is `admin` and `auth.isLoggedIn` and `auth.role` all hold;
otherwise the shell renders, with the footer suppressed when the view name
starts with `admin`. -/
def renderApp (s : AppState) : RenderedPage :=
  if s.view = View.admin ∧ s.isLoggedIn = true ∧ s.role.isSome = true then
    RenderedPage.adminFullPage
  else
    RenderedPage.shell (renderCurrentView s.view)
      (!(strStartsWith (viewName s.view) "admin"))

/-- The authorization invariant: the admin view is only ever current for
an authenticated session with a (recognized) role. -/
def AuthInv (s : AppState) : Prop :=
  s.view = View.admin → s.isLoggedIn = true ∧ s.role.isSome = true

theorem closeOverlays_view (ov : View) (s : AppState) :
    (closeOverlaysOnViewChange ov s).view = s.view := by
  unfold closeOverlaysOnViewChange
  split <;> rfl

theorem closeOverlays_isLoggedIn (ov : View) (s : AppState) :
    (closeOverlaysOnViewChange ov s).isLoggedIn = s.isLoggedIn := by
  unfold closeOverlaysOnViewChange
  split <;> rfl

theorem closeOverlays_role (ov : View) (s : AppState) :
    (closeOverlaysOnViewChange ov s).role = s.role := by
  unfold closeOverlaysOnViewChange
  split <;> rfl

theorem authInv_applyEvent (s : AppState) (e : Event) (h : AuthInv s) :
    AuthInv (applyEvent s e) := by
  unfold AuthInv at h ⊢
  cases e with
  | navStore => intro hv; simp [applyEvent] at hv
  | navContact => intro hv; simp [applyEvent] at hv
  | navDashboard =>
    by_cases hl : s.isLoggedIn = true
    · simp only [applyEvent, if_pos hl]
      intro hv
      simp at hv
    · simp only [applyEvent, if_neg hl]
      exact h
  | navAdmin =>
    by_cases hvis : adminNavVisible s = true
    · simp only [applyEvent, if_pos hvis]
      intro _
      unfold adminNavVisible at hvis
      simp only [Bool.and_eq_true] at hvis
      refine ⟨hvis.1, ?_⟩
      cases hr : s.role with
      | none => rw [hr] at hvis; simp at hvis
      | some r => simp [hr]
    · simp only [applyEvent, if_neg hvis]
      exact h
  | navCheckout => intro hv; simp [applyEvent] at hv
  | loginSuccess r =>
    by_cases hm : s.isLoginModalOpen = true
    · simp only [applyEvent, if_pos hm]
      intro _
      simp
    · simp only [applyEvent, if_neg hm]
      exact h
  | logout =>
    by_cases hl : s.isLoggedIn = true
    · simp only [applyEvent, if_pos hl]
      intro hv
      simp at hv
    · simp only [applyEvent, if_neg hl]
      exact h
  | placeOrder nowStr rand =>
    by_cases hc : s.view = View.checkout
    · simp only [applyEvent, if_pos hc]
      intro hv
      simp at hv
    · simp only [applyEvent, if_neg hc]
      exact h
  | openCart => exact h
  | closeCart => exact h
  | toggleMobileMenu => exact h
  | openLoginModal =>
    by_cases hl : s.isLoggedIn = true
    · simp only [applyEvent, if_pos hl]
      exact h
    · simp only [applyEvent, if_neg hl]
      exact h
  | closeLoginModal => exact h
  | addToCart => exact h

theorem authInv_step (s : AppState) (e : Event) (h : AuthInv s) :
    AuthInv (step s e) := by
  unfold step AuthInv
  rw [closeOverlays_view, closeOverlays_isLoggedIn, closeOverlays_role]
  exact authInv_applyEvent s e h

theorem authInv_runEvents (s : AppState) (es : List Event) (h : AuthInv s) :
    AuthInv (runEvents s es) := by
  induction es generalizing s with
  | nil => exact h
  | cons e es ih => exact ih (step s e) (authInv_step s e h)

theorem authInv_reachable (s : AppState) (h : Reachable s) : AuthInv s := by
  obtain ⟨cart0, es, rfl⟩ := h
  exact authInv_runEvents _ es (by intro hv; cases hv)

/-- C4: in every state reachable by the view controller, the admin view
only renders for an authenticated session with a recognized role — both
in the sense that the current view is `admin` only under those conditions
and that the full-page AdminView branch requires them; and a navigation
to admin while unauthenticated is rejected with no state transition,
leaving the entire state (in particular the view) at its prior value. -/
theorem admin_access_gated (s : AppState) :
    (Reachable s → s.view = View.admin →
      s.isLoggedIn = true ∧ s.role.isSome = true) ∧
    (renderApp s = RenderedPage.adminFullPage →
      s.isLoggedIn = true ∧ s.role.isSome = true) ∧
    (s.isLoggedIn = false → step s Event.navAdmin = s) := by
  refine ⟨fun hr => authInv_reachable s hr, ?_, ?_⟩
  · intro hrender
    unfold renderApp at hrender
    split at hrender
    · rename_i hcond
      exact hcond.2
    · cases hrender
  · intro hauth
    unfold step applyEvent
    have hvis : adminNavVisible s = false := by
      unfold adminNavVisible
      rw [hauth]
      rfl
    rw [hvis]
    simp only [Bool.false_eq_true, if_false]
    unfold closeOverlaysOnViewChange
    rw [if_pos rfl]

/-- C4 witness: the initial state is reachable and unauthenticated, and a
navigation to admin from it is a no-op. -/
theorem admin_access_gated_witness :
    step (initialState 0) Event.navAdmin = initialState 0 :=
  (admin_access_gated (initialState 0)).2.2 rfl

/-- A reachable state with the login modal open: the initial state after
clicking Admin Login (line 346). -/
def loginModalOpenState : AppState :=
  { view := View.store
    isLoggedIn := false
    role := none
    isCartOpen := false
    isMobileMenuOpen := false
    isLoginModalOpen := true
    itemCount := 0
    lastOrderId := none }

/-- C5 counterexample: from a reachable state with the login modal open,
navigating to the contact view changes the view, yet the login modal flag
stays open — the effect at lines 89-93 resets only the cart panel and the
mobile menu, so not all three overlay flags are reset on a view change. -/
theorem view_change_leaves_login_modal_open :
    Reachable loginModalOpenState ∧
    (step loginModalOpenState Event.navContact).view ≠ loginModalOpenState.view ∧
    (step loginModalOpenState Event.navContact).isLoginModalOpen = true :=
  ⟨⟨0, [Event.openLoginModal], by decide⟩, by decide, by decide⟩

/-- C5 (amended): whenever the view changes to a new value, the cart panel
and the mobile menu flags are forcibly reset to closed; the login modal
flag is not covered by this reset. -/
theorem view_change_closes_cart_and_menu (s : AppState) (e : Event)
    (h : (step s e).view ≠ s.view) :
    (step s e).isCartOpen = false ∧ (step s e).isMobileMenuOpen = false := by
  unfold step closeOverlaysOnViewChange at h ⊢
  by_cases hv : (applyEvent s e).view = s.view
  · rw [if_pos hv] at h
    exact absurd hv h
  · rw [if_neg hv]
    exact ⟨rfl, rfl⟩

/-- C5 (amended) witness: a concrete view change with both flags reset. -/
theorem view_change_closes_cart_and_menu_witness :
    (step loginModalOpenState Event.navContact).isCartOpen = false ∧
    (step loginModalOpenState Event.navContact).isMobileMenuOpen = false :=
  view_change_closes_cart_and_menu loginModalOpenState Event.navContact
    (by decide)

/-- C10: when the view is `admin` but the session is unauthenticated or
has no role, the full-page AdminView branch is skipped and the app
renders the store view content inside the standard page shell — the
switch in renderCurrentView has no `admin` case, so it falls through to
`default` — while the footer is still suppressed, because the footer
condition (line 398) tests the view name `admin`, not the rendered
content. -/
theorem unauthenticated_admin_falls_through (s : AppState)
    (hview : s.view = View.admin)
    (hauth : ¬ (s.isLoggedIn = true ∧ s.role.isSome = true)) :
    renderApp s = RenderedPage.shell View.store false := by
  unfold renderApp
  rw [if_neg (by intro hc; exact hauth ⟨hc.2.1, hc.2.2⟩)]
  rw [hview]
  rfl

/-- C10 witness: a concrete unauthenticated state parked at the admin
view renders the store content with the footer suppressed. -/
theorem unauthenticated_admin_falls_through_witness :
    renderApp
      { view := View.admin, isLoggedIn := false, role := none,
        isCartOpen := false, isMobileMenuOpen := false,
        isLoginModalOpen := false, itemCount := 0, lastOrderId := none } =
      RenderedPage.shell View.store false :=
  unauthenticated_admin_falls_through _ rfl (by decide)

/-- The decimal digit characters, as the rendering of `Date.now()`
produces. -/
def digitChars : List Char :=
  ['0', '1', '2', '3', '4', '5', '6', '7', '8', '9']

/-- The lowercase base-36 digit characters, as
`Math.random().toString(36)` produces after the leading `0.`. -/
def lowerBase36Chars : List Char :=
  digitChars ++ ['a', 'b', 'c', 'd', 'e', 'f', 'g', 'h', 'i', 'j', 'k', 'l',
    'm', 'n', 'o', 'p', 'q', 'r', 's', 't', 'u', 'v', 'w', 'x', 'y', 'z']

/-- A decimal digit string. -/
def DigitStr (str : String) : Prop := ∀ ch ∈ str.data, ch ∈ digitChars

/-- A string of lowercase base-36 digits. -/
def Base36Str (str : String) : Prop := ∀ ch ∈ str.data, ch ∈ lowerBase36Chars

instance decidableDigitStr (str : String) : Decidable (DigitStr str) :=
  List.decidableBAll (fun ch => ch ∈ digitChars) str.data

instance decidableBase36Str (str : String) : Decidable (Base36Str str) :=
  List.decidableBAll (fun ch => ch ∈ lowerBase36Chars) str.data

theorem toUpper_base36_ne_dash :
    ∀ ch ∈ lowerBase36Chars, Char.toUpper ch ≠ '-' := by decide

theorem digit_ne_dash : ∀ ch ∈ digitChars, ch ≠ '-' := by decide

theorem toUpper_inj_base36 :
    ∀ c1 ∈ lowerBase36Chars, ∀ c2 ∈ lowerBase36Chars,
      Char.toUpper c1 = Char.toUpper c2 → c1 = c2 := by decide

theorem append_sep_inj {sep : Char} :
    ∀ (a c b d : List Char), sep ∉ a → sep ∉ c →
      a ++ sep :: b = c ++ sep :: d → a = c ∧ b = d := by
  intro a
  induction a with
  | nil =>
    intro c b d _ hc h
    cases c with
    | nil =>
      simp only [List.nil_append, List.cons.injEq] at h
      exact ⟨rfl, h.2⟩
    | cons y ys =>
      simp only [List.nil_append, List.cons_append, List.cons.injEq] at h
      exact (hc (by rw [h.1]; exact List.mem_cons_self _ _)).elim
  | cons x xs ih =>
    intro c b d ha hc h
    cases c with
    | nil =>
      simp only [List.cons_append, List.nil_append, List.cons.injEq] at h
      exact (ha (by rw [← h.1]; exact List.mem_cons_self _ _)).elim
    | cons y ys =>
      simp only [List.cons_append, List.cons.injEq] at h
      obtain ⟨rfl, h2⟩ := h
      have hrec := ih ys b d (fun hm => ha (List.mem_cons_of_mem _ hm))
        (fun hm => hc (List.mem_cons_of_mem _ hm)) h2
      exact ⟨by rw [hrec.1], hrec.2⟩

theorem map_toUpper_inj :
    ∀ (l1 l2 : List Char), (∀ ch ∈ l1, ch ∈ lowerBase36Chars) →
      (∀ ch ∈ l2, ch ∈ lowerBase36Chars) →
      l1.map Char.toUpper = l2.map Char.toUpper → l1 = l2 := by
  intro l1
  induction l1 with
  | nil =>
    intro l2 _ _ h
    cases l2 with
    | nil => rfl
    | cons y ys => simp at h
  | cons x xs ih =>
    intro l2 h1 h2 h
    cases l2 with
    | nil => simp at h
    | cons y ys =>
      simp only [List.map_cons, List.cons.injEq] at h
      rw [toUpper_inj_base36 x (h1 x (List.mem_cons_self _ _)) y
          (h2 y (List.mem_cons_self _ _)) h.1,
        ih ys (fun ch hm => h1 ch (List.mem_cons_of_mem _ hm))
          (fun ch hm => h2 ch (List.mem_cons_of_mem _ hm)) h.2]

theorem genOrderId_inj (n1 r1 n2 r2 : String)
    (hd1 : DigitStr n1) (hd2 : DigitStr n2)
    (hb1 : Base36Str r1) (hb2 : Base36Str r2)
    (hne : (n1, r1) ≠ (n2, r2)) :
    genOrderId n1 r1 ≠ genOrderId n2 r2 := by
  intro heq
  unfold genOrderId at heq
  have hdata : ("ORD-".data ++ n1.data) ++ '-' :: (jsToUpper r1).data =
      ("ORD-".data ++ n2.data) ++ '-' :: (jsToUpper r2).data :=
    congrArg String.data heq
  rw [List.append_assoc, List.append_assoc] at hdata
  have hdata2 := List.append_cancel_left hdata
  have hsplit := append_sep_inj n1.data n2.data (jsToUpper r1).data
    (jsToUpper r2).data
    (fun hm => digit_ne_dash '-' (hd1 '-' hm) rfl)
    (fun hm => digit_ne_dash '-' (hd2 '-' hm) rfl)
    hdata2
  have hn : n1 = n2 := by
    cases n1
    cases n2
    exact congrArg String.mk (by simpa using hsplit.1)
  have hmap : r1.data.map Char.toUpper = r2.data.map Char.toUpper := hsplit.2
  have hr : r1 = r2 := by
    have hlist : r1.data = r2.data :=
      map_toUpper_inj r1.data r2.data (fun ch hm => hb1 ch hm)
        (fun ch hm => hb2 ch hm) hmap
    cases r1
    cases r2
    exact congrArg String.mk (by simpa using hlist)
  exact hne (by rw [hn, hr])

/-- The order ids generated along a run, in invocation order: every
placeOrder event fired in the checkout view contributes one id. -/
def orderIdsGenerated (s : AppState) : List Event → List String
  | [] => []
  | e :: es =>
    (match e with
     | Event.placeOrder nowStr rand =>
       if s.view = View.checkout then [genOrderId nowStr rand] else []
     | _ => []) ++ orderIdsGenerated (step s e) es

/-- The (clock, randomness) input pairs consumed by the same
invocations. -/
def orderInputs (s : AppState) : List Event → List (String × String)
  | [] => []
  | e :: es =>
    (match e with
     | Event.placeOrder nowStr rand =>
       if s.view = View.checkout then [(nowStr, rand)] else []
     | _ => []) ++ orderInputs (step s e) es

theorem orderIdsGenerated_eq_map (s : AppState) (es : List Event) :
    orderIdsGenerated s es =
      (orderInputs s es).map (fun pr => genOrderId pr.1 pr.2) := by
  induction es generalizing s with
  | nil => rfl
  | cons e es ih =>
    cases e
    case placeOrder n r =>
      simp only [orderIdsGenerated, orderInputs]
      split <;> simp [ih]
    all_goals simp [orderIdsGenerated, orderInputs, ih]

theorem orderIds_nodup (s : AppState) (es : List Event)
    (hwf : ∀ pr ∈ orderInputs s es, DigitStr pr.1 ∧ Base36Str pr.2)
    (hnd : (orderInputs s es).Nodup) :
    (orderIdsGenerated s es).Nodup := by
  rw [orderIdsGenerated_eq_map]
  apply hnd.map_on
  intro x hx y hy hxy
  by_contra hne
  exact genOrderId_inj x.1 x.2 y.1 y.2 (hwf x hx).1 (hwf y hy).1
    (hwf x hx).2 (hwf y hy).2 (by simpa using hne) hxy

/-- A session trace in which the environment hands handlePlaceOrder the
same clock value and the same randomness twice. -/
def duplicateOrderTrace : List Event :=
  [Event.addToCart, Event.navCheckout,
   Event.placeOrder "1700000000000" "k3j9x",
   Event.navCheckout,
   Event.placeOrder "1700000000000" "k3j9x"]

/-- C6 counterexample: two distinct place-order invocations of one
session whose generated identifiers coincide — the id is built only from
`Date.now()` and `Math.random()`, and nothing prevents those sources from
repeating, so session-uniqueness is not unconditional. -/
theorem order_ids_can_repeat :
    (orderIdsGenerated (initialState 0) duplicateOrderTrace).length = 2 ∧
    ¬ (orderIdsGenerated (initialState 0) duplicateOrderTrace).Nodup := by
  decide

/-- C6 (amended): placing an order in the checkout view transitions the
view to confirmation, clears the cart (item count 0) and records a
non-empty order identifier; and the identifiers of the place-order
invocations of one session are pairwise distinct provided the clock and
randomness inputs supplied to them are pairwise distinct (well-formed as
a decimal timestamp and a base-36 fragment). -/
theorem place_order_behaviour (s : AppState) (nowStr rand : String)
    (es : List Event)
    (hview : s.view = View.checkout)
    (hwf : ∀ pr ∈ orderInputs s es, DigitStr pr.1 ∧ Base36Str pr.2)
    (hnd : (orderInputs s es).Nodup) :
    (step s (Event.placeOrder nowStr rand)).view = View.confirmation ∧
    (step s (Event.placeOrder nowStr rand)).itemCount = 0 ∧
    (step s (Event.placeOrder nowStr rand)).lastOrderId =
      some (genOrderId nowStr rand) ∧
    genOrderId nowStr rand ≠ String.mk [] ∧
    (orderIdsGenerated s es).Nodup := by
  have happ : applyEvent s (Event.placeOrder nowStr rand) =
      { s with lastOrderId := some (genOrderId nowStr rand),
               itemCount := 0, view := View.confirmation } := by
    simp [applyEvent, hview]
  have hstep : step s (Event.placeOrder nowStr rand) =
      { s with lastOrderId := some (genOrderId nowStr rand),
               itemCount := 0, view := View.confirmation,
               isCartOpen := false, isMobileMenuOpen := false } := by
    unfold step
    rw [happ]
    unfold closeOverlaysOnViewChange
    rw [if_neg (by rw [hview]; simp)]
  refine ⟨by rw [hstep], by rw [hstep], by rw [hstep], ?_,
    orderIds_nodup s es hwf hnd⟩
  intro h
  have h2 := congrArg String.data h
  simp [genOrderId] at h2

/-- A state parked at the checkout view with items in the cart. -/
def checkoutState : AppState :=
  { view := View.checkout
    isLoggedIn := false
    role := none
    isCartOpen := false
    isMobileMenuOpen := false
    isLoginModalOpen := false
    itemCount := 3
    lastOrderId := none }

/-- A session trace whose two place-order invocations receive distinct
clock values. -/
def distinctOrderTrace : List Event :=
  [Event.placeOrder "1700000000000" "k3j9x",
   Event.navCheckout,
   Event.placeOrder "1700000000001" "k3j9x"]

/-- C6 (amended) witness: a concrete checkout state and trace with
distinct well-formed inputs, discharging every hypothesis. -/
theorem place_order_behaviour_witness :
    (step checkoutState (Event.placeOrder "1700000000000" "k3j9x")).view =
      View.confirmation ∧
    (step checkoutState (Event.placeOrder "1700000000000" "k3j9x")).itemCount = 0 ∧
    (step checkoutState (Event.placeOrder "1700000000000" "k3j9x")).lastOrderId =
      some (genOrderId "1700000000000" "k3j9x") ∧
    genOrderId "1700000000000" "k3j9x" ≠ String.mk [] ∧
    (orderIdsGenerated checkoutState distinctOrderTrace).Nodup :=
  place_order_behaviour checkoutState "1700000000000" "k3j9x"
    distinctOrderTrace rfl (by decide) (by decide)

/-- The product-grid load state (lines 25-27): the loading flag, the
error message and the loaded product list. -/
structure LoadState where
  isLoading : Bool
  error : Option String
  products : List Product
deriving DecidableEq, Repr

/-- Initial load state (lines 25-27): loading, no error, no products. -/
def initialLoadState : LoadState :=
  { isLoading := true, error := none, products := [] }

/-- The single user-visible message set on load failure (line 79). -/
def productLoadErrorMessage : String :=
  "Failed to load products. Please check your API key and network connection."

/-- One complete run of the fetch body (lines 72-84): set loading and
clear the error, then either store the products or set the error message,
and finally end loading. -/
def applyLoadResult (s : LoadState) (r : Except String (List Product)) :
    LoadState :=
  let started := { s with isLoading := true, error := none }
  let finished :=
    match r with
    | Except.ok ps => { started with products := ps }
    | Except.error _ => { started with error := some productLoadErrorMessage }
  { finished with isLoading := false }

/-- The fetch effect (lines 70-87) re-runs only when this dependency
value changes; a failed load leaves it unchanged, so no retry fires. -/
def productsEffectDep (s : LoadState) : Nat := s.products.length

/-- Lines 212-223: the skeleton renders while loading. -/
def showsLoadingSkeleton (s : LoadState) : Bool := s.isLoading

/-- Lines 224-226: the error panel renders when the error is set. -/
def showsErrorPanel (s : LoadState) : Bool := s.error.isSome

/-- Lines 227-233: the grid renders when not loading and no error. -/
def showsLoadedGrid (s : LoadState) : Bool := !s.isLoading && !s.error.isSome

/-- Exactly one of the three grid-region affordances is shown. -/
def exactlyOneRegion (s : LoadState) : Prop :=
  (showsLoadingSkeleton s = true ∧ showsErrorPanel s = false ∧
      showsLoadedGrid s = false) ∨
  (showsLoadingSkeleton s = false ∧ showsErrorPanel s = true ∧
      showsLoadedGrid s = false) ∨
  (showsLoadingSkeleton s = false ∧ showsErrorPanel s = false ∧
      showsLoadedGrid s = true)

/-- C7: the three grid-region states are mutually exclusive in every
quiescent state (the initial state and every state a completed fetch
produces); when the load fails, the single error message is set, loading
ends, the dependency of the fetch effect is unchanged (so no retry
fires), and the region shows exactly the error panel — not the skeleton
and not the grid. -/
theorem grid_region_states_exclusive :
    exactlyOneRegion initialLoadState ∧
    (∀ (s : LoadState) (r : Except String (List Product)),
      exactlyOneRegion (applyLoadResult s r)) ∧
    (∀ (s : LoadState) (e : String),
      (applyLoadResult s (Except.error e)).error =
        some productLoadErrorMessage ∧
      (applyLoadResult s (Except.error e)).isLoading = false ∧
      showsErrorPanel (applyLoadResult s (Except.error e)) = true ∧
      showsLoadingSkeleton (applyLoadResult s (Except.error e)) = false ∧
      showsLoadedGrid (applyLoadResult s (Except.error e)) = false ∧
      productsEffectDep (applyLoadResult s (Except.error e)) =
        productsEffectDep s) := by
  refine ⟨Or.inl ⟨rfl, rfl, rfl⟩, ?_, ?_⟩
  · intro s r
    cases r with
    | ok ps => exact Or.inr (Or.inr ⟨rfl, rfl, rfl⟩)
    | error e => exact Or.inr (Or.inl ⟨rfl, rfl, rfl⟩)
  · intro s e
    exact ⟨rfl, rfl, rfl, rfl, rfl, rfl⟩

/-- The notifications effect (lines 51-65): when logged in with a role it
fetches, storing the result on success and leaving the previous list
unchanged on failure (the error is only logged, never surfaced and never
retried); otherwise it clears the list without any network call.  The
Boolean records whether a network call occurred. -/
def notificationsEffect (isLoggedIn : Bool) (role : Option UserRole)
    (prev : List AdminNotification)
    (fetchResult : Except String (List AdminNotification)) :
    List AdminNotification × Bool :=
  if isLoggedIn && role.isSome then
    match fetchResult with
    | Except.ok ns => (ns, true)
    | Except.error _ => (prev, true)
  else ([], false)

/-- C8: on logout or with an absent role, the notification list is
cleared immediately and no network call happens; when the fetch fails,
the previous notification list is left unchanged (the call happened, the
failure is swallowed). -/
theorem notifications_effect_spec (b : Bool) (role : Option UserRole)
    (prev : List AdminNotification)
    (r : Except String (List AdminNotification)) (e : String) :
    ((b && role.isSome) = false →
      notificationsEffect b role prev r = ([], false)) ∧
    ((b && role.isSome) = true →
      notificationsEffect b role prev (Except.error e) = (prev, true)) := by
  constructor
  · intro h
    unfold notificationsEffect
    rw [h]
    simp
  · intro h
    unfold notificationsEffect
    rw [h]
    simp

/-- C8 witness: both clauses at concrete inputs — logged out clears with
no call; a failed fetch while authorized leaves the list unchanged. -/
theorem notifications_effect_spec_witness :
    notificationsEffect false (some UserRole.admin) [] (Except.error "x") =
      ([], false) ∧
    notificationsEffect true (some UserRole.admin)
        [{ id := "n1", type := NotificationType.order, message := "m",
           date := "d", isRead := false }] (Except.error "x") =
      ([{ id := "n1", type := NotificationType.order, message := "m",
          date := "d", isRead := false }], true) :=
  ⟨(notifications_effect_spec false (some UserRole.admin) []
      (Except.error "x") "x").1 rfl,
   (notifications_effect_spec true (some UserRole.admin)
      [{ id := "n1", type := NotificationType.order, message := "m",
         date := "d", isRead := false }] (Except.error "x") "x").2 rfl⟩

end StoreApp
